import Mathlib

/-!
Verification of the selection-popup content script and its streaming
response controller.

The definitions below are shallow embeddings of the JavaScript sources:
* `src/frontend/src/content.js` — selection tracking, rect resolution and
  the `update` reconciliation loop;
* `src/frontend/src/components/ContentPopup.jsx` — rate-limit gate,
  conversation history, streaming normalization and 429 handling;
* the overlay / response-section helper modules.

Numbers that the page reports as floats (client rects, timestamps) are
modelled as `Int`; every claim under study only compares or adds them.
-/

namespace RenderSrv

/-- JavaScript's `\s` / `String.prototype.trim` whitespace class:
ASCII whitespace, NBSP, the Unicode space separators, the line
separators, and the BOM. -/
def isJsWhitespace (c : Char) : Bool :=
  let n := c.toNat
  n = 0x09 || n = 0x0A || n = 0x0B || n = 0x0C || n = 0x0D || n = 0x20 ||
  n = 0xA0 || n = 0x1680 || (0x2000 ≤ n && n ≤ 0x200A) ||
  n = 0x2028 || n = 0x2029 || n = 0x202F || n = 0x205F || n = 0x3000 || n = 0xFEFF

/-- JavaScript `String.prototype.trim()`: strip leading and trailing
whitespace. -/
def jsTrim (s : String) : String :=
  String.mk (((s.data.dropWhile isJsWhitespace).reverse.dropWhile isJsWhitespace).reverse)

/-- A DOMRect in viewport coordinates, as consumed by `content.js`. -/
structure Rect where
  left : Int
  top : Int
  right : Int
  bottom : Int
  width : Int
  height : Int
deriving Repr, DecidableEq

/-- One selection range: its `getClientRects()` list and its
`getBoundingClientRect()`. -/
structure RangeInfo where
  rects : List Rect
  bounding : Rect
deriving Repr, DecidableEq

/-- The live `window.getSelection()` state: `toString()` result,
`isCollapsed`, and the ranges (`rangeCount = ranges.length`,
`getRangeAt(0)` = head). -/
structure SelState where
  text : String
  isCollapsed : Bool
  ranges : List RangeInfo
deriving Repr, DecidableEq

/-- DOM facts a reconciliation tick reads: the selection (`none` when
`window.getSelection()` is null), the highlight-overlay element with its
`.hl` block rects (`none` when the overlay element does not exist), and
the viewport size. -/
structure DomEnv where
  sel : Option SelState
  overlay : Option (List Rect)
  innerWidth : Int
  innerHeight : Int
deriving Repr, DecidableEq

/-- The `for (const r of rects) if (r.bottom > bottomMost.bottom) ...` loop
from `getSelectionRect`, folding from an initial candidate. -/
def bottomMostFold (r0 : Rect) (rs : List Rect) : Rect :=
  rs.foldl (fun best r => if best.bottom < r.bottom then r else best) r0

/-- The overlay fallback of `getSelectionRect` (`content.js` 198–216):
with highlight blocks present, choose the bottom-most block and accept it
only when its width or height is positive. -/
def overlayBranch (env : DomEnv) : Option Rect :=
  match env.overlay with
  | some [] => none
  | some (b0 :: bs) =>
    let bm := bottomMostFold b0 (b0 :: bs)
    if 0 < bm.width ∨ 0 < bm.height then some bm else none
  | none => none

/-- The live-branch rect of `getSelectionRect`: the bottom-most client
rect of the range (seeded at `rects[0]`, looped over the whole list), or
the bounding rect when there are no client rects. -/
def liveRect (range : RangeInfo) : Rect :=
  match range.rects with
  | [] => range.bounding
  | r0 :: rest => bottomMostFold r0 (r0 :: rest)

/-- `getSelectionRect()` from `content.js` (lines 177–219): prefer the
bottom-most client rect of the live selection's first range (falling back
to the bounding rect when there are no client rects), rejecting a rect
whose width and height are both zero; otherwise derive the rect from the
overlay highlight blocks. -/
def getSelectionRect (env : DomEnv) : Option Rect :=
  match env.sel with
  | some s =>
    if 0 < s.ranges.length ∧ s.isCollapsed = false then
      match s.ranges with
      | [] => none
      | range :: _ =>
        let rect := liveRect range
        if rect.width = 0 ∧ rect.height = 0 then none else some rect
    else overlayBranch env
  | none => overlayBranch env

/-- Spec-side "bottom-most" choice: the first rect whose bottom is at
least every other rect's bottom. -/
def specBottomMost (rs : List Rect) : Option Rect :=
  rs.find? (fun r => rs.all (fun y => y.bottom ≤ r.bottom))

/-- Spec-side live rect: the first maximum-bottom client rect, the
bounding rect when there are none. -/
def specLiveRect (range : RangeInfo) : Rect :=
  (specBottomMost range.rects).getD range.bounding

/-- Spec-side overlay rect: the first maximum-bottom highlight block,
kept only when its width or height is positive. -/
def specOverlayRect (env : DomEnv) : Option Rect :=
  match env.overlay with
  | some blocks =>
    match specBottomMost blocks with
    | some bm => if 0 < bm.width ∨ 0 < bm.height then some bm else none
    | none => none
  | none => none

/-- `resolveAnchorRect` as the amended C7 claim describes it: live branch
with the bounding-rect fallback and the caret-only rejection, then the
overlay branch guarded by a positive width or height, else `null`. -/
def resolveAnchorRectSpec (env : DomEnv) : Option Rect :=
  match env.sel with
  | some s =>
    if 0 < s.ranges.length ∧ s.isCollapsed = false then
      match s.ranges with
      | [] => none
      | range :: _ =>
        let rect := specLiveRect range
        if rect.width = 0 ∧ rect.height = 0 then none else some rect
    else specOverlayRect env
  | none => specOverlayRect env

/-- The original C7 claim's overlay sentence, taken literally: whenever
highlight blocks exist, return the bottom-most block's rect with no
further condition. -/
def claimOverlayRect (env : DomEnv) : Option Rect :=
  match env.overlay with
  | some blocks => specBottomMost blocks
  | none => none

/-! ## The `content.js` visibility controller -/

/-- `MARGIN` from `content.js` line 13. -/
def MARGIN : Int := 8

/-- `rectIntersectsViewport` (`content.js` 221–230): visible when the rect
intersects the viewport by at least one pixel. -/
def rectIntersectsViewport (r : Rect) (env : DomEnv) : Bool :=
  decide (0 < r.bottom) && decide (0 < r.right) &&
  decide (r.left < env.innerWidth) && decide (r.top < env.innerHeight)

/-- `hasSelection` (`content.js` 159–175): selection text non-blank, or a
non-collapsed range, or overlay highlight blocks as saved-selection
evidence; a null selection object returns false immediately. -/
def hasSelection (env : DomEnv) : Bool :=
  match env.sel with
  | none => false
  | some s =>
    if jsTrim s.text ≠ "" then true
    else if s.isCollapsed = false ∧ 0 < s.ranges.length then true
    else
      match env.overlay with
      | some (_ :: _) => true
      | _ => false

/-- `window.getSelection().toString().trim()` as read inside `update`;
a null selection throws, the catch leaves the empty string. -/
def readSelText (env : DomEnv) : String :=
  match env.sel with
  | some s => jsTrim s.text
  | none => ""

/-- `let selVisible = !!rect && rectIntersectsViewport(rect)`. -/
def liveRectVisible (env : DomEnv) : Bool :=
  match getSelectionRect env with
  | some r => rectIntersectsViewport r env
  | none => false

/-- The synthetic corner rect built in `update` (`content.js` 272). -/
def cornerRect (env : DomEnv) : Rect :=
  { left := MARGIN, top := env.innerHeight - (MARGIN + 1),
    right := MARGIN + 1, bottom := env.innerHeight - MARGIN,
    width := 1, height := 1 }

/-- The corner rect as the original C8 claim words it: a 1×1 rect offset
from the bottom-left corner by a 1px margin. -/
def claimCornerRect (env : DomEnv) : Rect :=
  { left := 1, top := env.innerHeight - 2,
    right := 2, bottom := env.innerHeight - 1,
    width := 1, height := 1 }

/-- Mutable state of the content-script closure (`content.js` 14–20),
plus the popup element's display style. -/
structure CState where
  insidePopup : Bool
  lastVisible : Bool
  isMouseDown : Bool
  pinned : Bool
  forceClosed : Bool
  lastSelectionText : String
  display : Bool
deriving Repr, DecidableEq

/-- `popup:open` / `popup:close` signals dispatched by `update`. -/
inductive LifecycleEvent where
  | popupOpen
  | popupClose
deriving Repr, DecidableEq

/-- Result of one `update()` tick: the new state, the rect passed to
`positionBox` (none when the tick did not position), whether the tick
treated the selection as visible, and the dispatched lifecycle events. -/
structure TickResult where
  state : CState
  usedRect : Option Rect
  treatedVisible : Bool
  events : List LifecycleEvent
deriving Repr, DecidableEq

/-- `update()` from `content.js` (lines 263–309). -/
def update (st : CState) (env : DomEnv) : TickResult :=
  let rect0 := getSelectionRect env
  let selVisible0 := liveRectVisible env
  let anySelectionOrPinned := hasSelection env || st.pinned
  let corner := !selVisible0 && anySelectionOrPinned
  let rect : Option Rect := if corner then some (cornerRect env) else rect0
  let selVisible : Bool := if corner then true else selVisible0
  let currentSelText : String := if selVisible then readSelText env else ""
  let forceClosed : Bool :=
    if currentSelText = st.lastSelectionText then st.forceClosed else false
  let shouldShow : Bool :=
    !forceClosed && (st.pinned || (!st.isMouseDown && selVisible) || st.insidePopup)
  { state := { st with
      lastSelectionText := currentSelText,
      forceClosed := forceClosed,
      lastVisible := shouldShow,
      display := shouldShow },
    usedRect := if selVisible then rect else none,
    treatedVisible := selVisible,
    events := if shouldShow = st.lastVisible then []
      else [if shouldShow then .popupOpen else .popupClose] }

/-- Raw inputs to the content script: scheduled reconciliation ticks and
the document/window listeners (`content.js` 88–111, 140–141, 326–340). -/
inductive PageEvent where
  | tick (env : DomEnv)
  | forceClose
  | pinEvent (pinned : Bool)
  | mouseDown
  | mouseUp
  | pointerEnter
  | pointerLeave
deriving Repr, DecidableEq

/-- One listener firing: the `popup:forceClose` handler (lines 100–111),
the `popup:pin` handler (88–97), the mouse/pointer handlers, or a
debounced `update()` tick. -/
def step (st : CState) (e : PageEvent) : CState :=
  match e with
  | .tick env => (update st env).state
  | .forceClose =>
    { st with
        pinned := false, forceClosed := true, insidePopup := false,
        lastVisible := false, display := false }
  | .pinEvent p => { st with pinned := p }
  | .mouseDown => { st with isMouseDown := true }
  | .mouseUp => { st with isMouseDown := false }
  | .pointerEnter => { st with insidePopup := true }
  | .pointerLeave => { st with insidePopup := false }

/-- The tick's effective `selVisible`, after the corner-anchoring
substitution. -/
def selectionVisibleAt (st : CState) (env : DomEnv) : Bool :=
  liveRectVisible env || hasSelection env || st.pinned

/-- The selection text a tick observes: read from the live selection only
when the tick treats the selection as visible, else the empty string. -/
def tickSelText (st : CState) (env : DomEnv) : String :=
  if selectionVisibleAt st env then readSelText env else ""

/-- A run of page events contains only ticks whose computed selection
text equals the then-current last observed value. -/
def ticksUnchanged (st : CState) : List PageEvent → Bool
  | [] => true
  | e :: rest =>
    (match e with
     | .tick env => tickSelText st env == st.lastSelectionText
     | _ => true) && ticksUnchanged (step st e) rest

/-! ## `ContentPopup.jsx`: history, prompts, rate limiting, streaming -/

/-- One conversation-history entry. -/
structure ChatMsg where
  role : String
  content : String
deriving Repr, DecidableEq

/-- One context snapshot (`setContexts` payload). -/
structure Ctx where
  selection : String
  paragraph : String
  heading : String
  url : String
deriving Repr, DecidableEq

/-- `getGeminiLimitStatus()` result fields used by the controller. -/
structure LimitStatus where
  limit : Bool
  secondsRemaining : Int
deriving Repr, DecidableEq

/-- JavaScript truthy-default on numbers: `a || b`. -/
def jsOrInt (a b : Int) : Int := if a = 0 then b else a

/-- JavaScript truthy-default on strings: `a || b`. -/
def jsOrString (a b : String) : String := if a = "" then b else a

/-- Lower-case hex digit, as `JSON.stringify` emits in `\u` escapes. -/
def hexDigit (n : Nat) : Char :=
  if n < 10 then Char.ofNat (48 + n) else Char.ofNat (87 + n)

/-- `JSON.stringify` escaping of one character inside a string literal. -/
def jsonEscapeChar (c : Char) : String :=
  if c = '"' then "\\\""
  else if c = '\\' then "\\\\"
  else if c = '\n' then "\\n"
  else if c = '\r' then "\\r"
  else if c = '\t' then "\\t"
  else if c = '\x08' then "\\b"
  else if c = '\x0C' then "\\f"
  else if c.toNat < 32 then
    "\\u00" ++ String.mk [hexDigit (c.toNat / 16), hexDigit (c.toNat % 16)]
  else String.singleton c

/-- A `JSON.stringify`d string literal. -/
def jsonQuote (s : String) : String :=
  "\"" ++ String.join (s.data.map jsonEscapeChar) ++ "\""

/-- `JSON.stringify` of one history entry (keys in insertion order). -/
def jsonChatMsg (m : ChatMsg) : String :=
  "\x7b\"role\":" ++ jsonQuote m.role ++ ",\"content\":" ++ jsonQuote m.content ++ "\x7d"

/-- `JSON.stringify` of the history array. -/
def jsonHistory (h : List ChatMsg) : String :=
  "[" ++ String.intercalate "," (h.map jsonChatMsg) ++ "]"

/-- `JSON.stringify` of one context snapshot. -/
def jsonCtx (c : Ctx) : String :=
  "\x7b\"selection\":" ++ jsonQuote c.selection ++
  ",\"paragraph\":" ++ jsonQuote c.paragraph ++
  ",\"heading\":" ++ jsonQuote c.heading ++
  ",\"url\":" ++ jsonQuote c.url ++ "\x7d"

/-- `JSON.stringify` of the contexts array. -/
def jsonContexts (cs : List Ctx) : String :=
  "[" ++ String.intercalate "," (cs.map jsonCtx) ++ "]"

/-- `Prompt` from `prompt.jsx`. -/
def Prompt (selectedText url heading paragraph : String) : String :=
  "You are an assistant that explains text simply and clearly.\n" ++
  "\n" ++
  "   The user has selected the following text on a web page: " ++ selectedText ++ "\n" ++
  "   \n" ++
  "   Here is the paragraph containing that text: " ++ paragraph ++ "\n" ++
  "   \n" ++
  "   The page title (h1) is: " ++ heading ++ "\n" ++
  "   \n" ++
  "   The page URL is: " ++ url ++ "\n" ++
  "   \n" ++
  "  Task:\n" ++
  "   1. Explain what the selected text is and how it works or is used.\n" ++
  "   2. Do not mention the surrounding context, title, or source directly.\n" ++
  "   3. Adapt the explanation depending on the type of selection:\n" ++
  "      - Person’s name → explain their main contribution or role (not a full biography).\n" ++
  "      - Equation or formula → explain what the symbols mean and what the equation does.\n" ++
  "      - Term, definition, or jargon → explain the concept and how it works, with a simple example or analogy if helpful.\n" ++
  "      - General phrase or sentence → rephrase in simpler terms and clarify its meaning.\n" ++
  "   4. Keep the explanation clear and informative, focusing on function or meaning rather than history.\n" ++
  "   5. Limit the explanation to about 2 sentences.\n" ++
  "   "

/-- `SearchPrompt` from `prompt.jsx`. -/
def SearchPrompt (selectedText question url heading paragraph : String) : String :=
  "\n" ++
  "   \n" ++
  "   You are an assistant that answers questions simply and clearly.\n" ++
  "\n" ++
  "   The user has selected the following text on a web page:\n" ++
  "   " ++ selectedText ++ "\n" ++
  "   \n" ++
  "   Here is the paragraph containing that text:\n" ++
  "   " ++ paragraph ++ "\n" ++
  "   \n" ++
  "   The page title (h1) is:\n" ++
  "   " ++ heading ++ "\n" ++
  "   \n" ++
  "   The page URL is:\n" ++
  "   " ++ url ++ "\n" ++
  "   \n" ++
  "   The user asks this question about the selected text:\n" ++
  "   " ++ question ++ "\n" ++
  "\n" ++
  "   Task:\n" ++
  "   1. Answer the user’s question directly and clearly.\n" ++
  "   2. Use the provided context to guide your answer, but never mention the context or source explicitly.\n" ++
  "   3. Keep the answer informative and accurate:\n" ++
  "      - If the question is about a person → focus on their role or contribution.\n" ++
  "      - If about an equation or formula → explain the parts and what it does.\n" ++
  "      - If about a term or concept → define it and explain how it works, with a simple example if helpful.\n" ++
  "      - If about a phrase or sentence → clarify its meaning or usage.\n" ++
  "   4. Avoid unnecessary history or unrelated details unless essential to the answer.\n" ++
  "   5. Keep the explanation concise but complete (2–4 sentences).\n" ++
  "   "

/-- `DeeperPrompt` from `prompt.jsx`: raw follow-up question templated
over the stringified history and context snapshots. -/
def DeeperPrompt (history : List ChatMsg) (question : String) (context : List Ctx) : String :=
  jsonHistory history ++ "\n" ++
  "\n" ++
  "   new follow up user message: \x7b\n" ++
  "   role: \"user\",\n" ++
  "   content: \"" ++ question ++ "\"\n" ++
  "\n" ++
  "   context: " ++ jsonContexts context ++ "\n" ++
  "   \x7d\n" ++
  "   \n" ++
  "   Reminder: Keep the answer short (2–4 sentences) and finish at a natural stopping point.\n" ++
  "   "

/-- `buildPrompt` from `ContentPopup.jsx` (17–21). -/
def buildPrompt (selection heading url context : String) : String :=
  Prompt selection url heading context

/-- `indexOf` on character lists: the first index where the needle
occurs, if any. -/
def indexOfSub (needle : List Char) : List Char → Option Nat
  | [] => if needle.isEmpty then some 0 else none
  | c :: t =>
    if needle.isPrefixOf (c :: t) then some 0
    else (indexOfSub needle t).map (· + 1)

/-- `sliceAroundSelection` from `ContentPopup.jsx` (24–47): a window of
`radius` characters around the (case-insensitively located) selection
inside the paragraph, with `…` marks on clipped ends; clamps to
`radius*2` characters when the selection is absent. -/
def sliceAroundSelection (paragraph selection : String) (radius : Nat) : String :=
  let p := paragraph.data
  let sel := (jsTrim selection).data
  if p.isEmpty then ""
  else if sel.isEmpty then
    if radius * 2 < p.length then String.mk (p.take (radius * 2)) ++ "…" else String.mk p
  else
    match indexOfSub (sel.map Char.toLower) (p.map Char.toLower) with
    | none =>
      if radius * 2 < p.length then String.mk (p.take (radius * 2)) ++ "…" else String.mk p
    | some idx =>
      let start := idx - radius
      let endIdx := min p.length (idx + sel.length + radius)
      let slice := (p.drop start).take (endIdx - start)
      let withHead := if 0 < start then "…" ++ String.mk slice else String.mk slice
      if endIdx < p.length then withHead ++ "…" else withHead

/-- `RATE_LIMIT` (`ContentPopup.jsx` 73). -/
def RATE_LIMIT : Nat := 5

/-- `RATE_WINDOW_MS` (`ContentPopup.jsx` 74). -/
def RATE_WINDOW_MS : Int := 60000

/-- `Math.min(...recent)` over a list (only used on non-empty lists). -/
def listMin : List Int → Int
  | [] => 0
  | x :: xs => xs.foldl min x

/-- `Math.ceil(a / 1000)` on integers. -/
def ceilDiv1000 (a : Int) : Int := Int.ediv (a + 999) 1000

/-- Outcome of the client rate-limit gate. -/
structure GateOutcome where
  accepted : Bool
  newTimes : List Int
  remainingSec : Option Int
deriving Repr, DecidableEq

/-- The client-side rate-limit gate shared (by duplication) between
`handleExplainClick`, `handleTopSearchSubmit` and `handleDeeperSubmit`:
prune to timestamps strictly inside the window; with ≥ `RATE_LIMIT`
remaining, reject with `max 1 ⌈(oldest + window − now) / 1000⌉` seconds
and leave the stored list untouched; otherwise record `now`. -/
def rateGate (times : List Int) (now : Int) : GateOutcome :=
  let cutoff := now - RATE_WINDOW_MS
  let recent := times.filter (fun t => cutoff < t)
  if RATE_LIMIT ≤ recent.length then
    let oldest := listMin recent
    let remainingSec := max 1 (ceilDiv1000 (oldest + RATE_WINDOW_MS - now))
    { accepted := false, newTimes := times, remainingSec := some remainingSec }
  else
    { accepted := true, newTimes := recent ++ [now], remainingSec := none }

/-- The React component state of `ContentPopup` touched by the claims. -/
structure PopupState where
  selectedText : String
  loading : Bool
  error : String
  response : String
  history : List ChatMsg
  contexts : List Ctx
  questionInput : String
  deeperInput : String
  originalSelection : String
  limitReached : Int
  requestTimes : List Int
  appendedOnce : Bool
deriving Repr, DecidableEq

/-- A submission handler's effect: the new state and the prompt passed
to `callGemini` (none when no request was issued). -/
structure HandlerResult where
  state : PopupState
  request : Option String
deriving Repr, DecidableEq

/-- `handleExplainClick` (`ContentPopup.jsx` 478–523) up to the
`callGemini` call: empty-selection error, the rate-limit gate, then
prompt construction and history/context recording. -/
def handleExplainClick (st : PopupState) (selRaw : String) (now : Int)
    (fullContext : String) (url : String) (heading : String) : HandlerResult :=
  let text := jsTrim selRaw
  if text = "" then
    { state := { st with
        selectedText := "",
        error := "Please select some text to explain.",
        response := "" },
      request := none }
  else
    let cutoff := now - RATE_WINDOW_MS
    let recent := st.requestTimes.filter (fun t => cutoff < t)
    if RATE_LIMIT ≤ recent.length then
      let oldest := listMin recent
      let remainingSec := max 1 (ceilDiv1000 (oldest + RATE_WINDOW_MS - now))
      { state := { st with
          error := "",
          response := "Rate limit reached. Try again in " ++ toString remainingSec ++ "s" },
        request := none }
    else
      let context := sliceAroundSelection fullContext text 50
      let prompt := buildPrompt text heading url context
      { state := { st with
          requestTimes := recent ++ [now],
          selectedText := text,
          history := st.history ++ [⟨"user", prompt⟩],
          contexts := [⟨text, context, heading, url⟩] },
        request := some prompt }

/-- `handleTopSearchSubmit` (`ContentPopup.jsx` 526–557) up to the
`callGemini` call. -/
def handleTopSearchSubmit (st : PopupState) (inputRaw : String) (now : Int)
    (fullContext : String) (url : String) (heading : String) : HandlerResult :=
  let val := jsTrim inputRaw
  if val = "" then { state := st, request := none }
  else
    let cutoff := now - RATE_WINDOW_MS
    let recent := st.requestTimes.filter (fun t => cutoff < t)
    if RATE_LIMIT ≤ recent.length then
      let oldest := listMin recent
      let remainingSec := max 1 (ceilDiv1000 (oldest + RATE_WINDOW_MS - now))
      { state := { st with
          error := "",
          response := "Rate limit reached. Try again in " ++ toString remainingSec ++ "s" },
        request := none }
    else
      let context := sliceAroundSelection fullContext st.originalSelection 50
      let prompt := SearchPrompt st.originalSelection val url heading context
      { state := { st with
          requestTimes := recent ++ [now],
          questionInput := val,
          history := st.history ++ [⟨"user", prompt⟩],
          contexts := [⟨st.originalSelection, context, heading, url⟩] },
        request := some prompt }

/-- `handleDeeperSubmit` (`ContentPopup.jsx` 560–583) up to the
`callGemini` call: the raw follow-up is appended as the user entry,
while the deeper prompt is built from the pre-append history snapshot
(`historyRef.current`). -/
def handleDeeperSubmit (st : PopupState) (query : String) (now : Int) : HandlerResult :=
  let val := jsTrim query
  if val = "" then { state := st, request := none }
  else
    let cutoff := now - RATE_WINDOW_MS
    let recent := st.requestTimes.filter (fun t => cutoff < t)
    if RATE_LIMIT ≤ recent.length then
      let oldest := listMin recent
      let remainingSec := max 1 (ceilDiv1000 (oldest + RATE_WINDOW_MS - now))
      { state := { st with
          error := "",
          response := "Rate limit reached. Try again in " ++ toString remainingSec ++ "s" },
        request := none }
    else
      let prompt := DeeperPrompt st.history val st.contexts
      { state := { st with
          requestTimes := recent ++ [now],
          deeperInput := val,
          history := st.history ++ [⟨"user", val⟩] },
        request := some prompt }

/-- The streaming normalization `.replace(/\.\s\x7b2,\x7d/g, '.\n\n')`, on
character lists with explicit fuel (one unit per emitted head, so
`length` fuel always suffices): a period followed by a maximal run of at
least two whitespace characters becomes a period plus two newlines;
scanning resumes after the replacement. -/
def normCharsFuel : Nat → List Char → List Char
  | 0, l => l
  | _ + 1, [] => []
  | fuel + 1, c :: rest =>
    if c = '.' then
      if 2 ≤ (rest.takeWhile isJsWhitespace).length then
        '.' :: '\n' :: '\n' :: normCharsFuel fuel (rest.dropWhile isJsWhitespace)
      else c :: normCharsFuel fuel rest
    else c :: normCharsFuel fuel rest

/-- The normalization applied to a whole buffer string. -/
def normalizeText (s : String) : String :=
  String.mk (normCharsFuel s.data.length s.data)

/-- The `onToken` handler of `callGemini` (`ContentPopup.jsx` 381–387):
append the token to the buffer and normalize the whole buffer. -/
def applyToken (buffer token : String) : String :=
  normalizeText (buffer ++ token)

/-- JavaScript `\w` (ASCII word character), for the `\b` boundaries of
the 429 pattern. -/
def isWordChar (c : Char) : Bool := c.isAlpha || c.isDigit || c = '_'

/-- `429` at the head of the list with a word boundary after it. -/
def starts429 (l : List Char) : Bool :=
  match l with
  | '4' :: '2' :: '9' :: rest =>
    match rest with
    | [] => true
    | c :: _ => !isWordChar c
  | _ => false

/-- Scan for `\b429\b`: a match at a position whose preceding character
is not a word character. -/
def scan429 (prevIsWord : Bool) : List Char → Bool
  | [] => false
  | c :: rest => (!prevIsWord && starts429 (c :: rest)) || scan429 (isWordChar c) rest

/-- Case-insensitive literal match, returning the rest on success. -/
def matchCI : List Char → List Char → Option (List Char)
  | [], l => some l
  | _ :: _, [] => none
  | p :: ps, c :: cs => if c.toLower = p then matchCI ps cs else none

/-- `Too\s*Many\s*Requests` (case-insensitive) at the head of the list;
the greedy whitespace runs need no backtracking because `m`/`r` are not
whitespace. -/
def startsTMR (l : List Char) : Bool :=
  match matchCI "too".data l with
  | none => false
  | some r1 =>
    match matchCI "many".data (r1.dropWhile isJsWhitespace) with
    | none => false
    | some r2 => (matchCI "requests".data (r2.dropWhile isJsWhitespace)).isSome

/-- Scan for the `Too\s*Many\s*Requests` alternative anywhere. -/
def scanTMR : List Char → Bool
  | [] => false
  | c :: rest => startsTMR (c :: rest) || scanTMR rest

/-- The rate-limit detector `/\b429\b|Too\s*Many\s*Requests/i.test(msg)`
used by `callGemini`'s error paths. -/
def is429 (msg : String) : Bool :=
  scan429 false msg.data || scanTMR msg.data

/-- State changes `callGemini` performs before issuing the request
(`ContentPopup.jsx` 370–373). -/
def submitInit (st : PopupState) : PopupState :=
  { st with loading := true, error := "", response := "", appendedOnce := false }

/-- Outcome of the non-streaming fallback attempted when streaming fails
for a non-429 reason: the full-response text plus the follow-up limit
fetch, or the second error message with its own limit fetch. -/
inductive FallbackOutcome where
  | ok (out : String) (status : Option LimitStatus)
  | fail (e2Msg : String) (secs2 : Int)
deriving Repr, DecidableEq

/-- Asynchronous completions delivered to one in-flight `callGemini`
request: an SSE token, stream completion (with the follow-up limit-status
fetch, `none` when that fetch throws), or a stream error carrying the
fetched remaining-seconds (0 when the fetch throws) and the fallback's
outcome. -/
inductive ReqEvent where
  | token (t : String)
  | streamDone (status : Option LimitStatus)
  | streamError (errMsg : String) (secs : Int) (fb : FallbackOutcome)
deriving Repr, DecidableEq

/-- The common 429 branch of `callGemini`'s error handling: transient
response message, idempotency flag set without appending, shared limit
counter refreshed, loading cleared; error and history untouched. -/
def rateLimitedUpdate (st : PopupState) (seconds : Int) : PopupState :=
  { st with
      response := "Too many requests, please try again in " ++
        toString (jsOrInt seconds 60) ++ " seconds.",
      appendedOnce := true,
      limitReached := jsOrInt seconds 60,
      loading := false }

/-- `setLimitReached(status.limit ? (Number(status.secondsRemaining||0)||1) : 0)`;
a failed fetch (`none`) leaves the counter unchanged. -/
def applyLimitStatus (st : PopupState) (status : Option LimitStatus) : PopupState :=
  match status with
  | some s =>
    { st with limitReached := if s.limit then jsOrInt s.secondsRemaining 1 else 0 }
  | none => st

/-- The guarded assistant append shared by `onDone` and the fallback:
only a non-empty trimmed text, and only once per request. -/
def appendAssistantIfNew (st : PopupState) (finalText : String) : PopupState :=
  if finalText ≠ "" ∧ st.appendedOnce = false then
    { st with
        appendedOnce := true,
        history := st.history ++ [⟨"assistant", finalText⟩] }
  else st

/-- One completion event applied to the request state, following
`callGemini` (`ContentPopup.jsx` 366–476). -/
def reqStep (st : PopupState) (e : ReqEvent) : PopupState :=
  match e with
  | .token t => { st with response := applyToken st.response t }
  | .streamDone status =>
    let st1 := { st with loading := false }
    applyLimitStatus (appendAssistantIfNew st1 (jsTrim st.response)) status
  | .streamError errMsg secs fb =>
    if is429 errMsg then rateLimitedUpdate st secs
    else
      match fb with
      | .ok out status =>
        let normalized := normalizeText (jsOrString out "(No response)")
        let st1 := { st with response := normalized }
        let st2 := appendAssistantIfNew st1 (jsTrim normalized)
        let st3 := applyLimitStatus st2 status
        { st3 with loading := false }
      | .fail e2Msg secs2 =>
        if is429 e2Msg then rateLimitedUpdate st secs2
        else
          { st with
              error := jsOrString errMsg (jsOrString e2Msg "Failed to call Gemini service"),
              loading := false }

/-- One tick of the 1-second countdown interval (`ContentPopup.jsx`
302–323): decrement, flooring at zero. -/
def countdownTick (n : Int) : Int :=
  if 0 < n - 1 then n - 1 else 0

/-- `visibleHistory` from `ResponseSection`: the transcript renders all
entries after index 0. -/
def visibleHistory (h : List ChatMsg) : List ChatMsg :=
  if 0 < h.length then h.drop 1 else []

/-- The deeper search bar blocks submission while `limitReached >= 1`
(`ResponseSection` key/click handlers). -/
def deeperSubmitBlocked (limitReached : Int) : Bool :=
  1 ≤ limitReached

/-- A sequence of gate checks threading the stored timestamp list,
collecting each submission's acceptance. -/
def runGate (times : List Int) : List Int → List Bool
  | [] => []
  | now :: rest =>
    let g := rateGate times now
    g.accepted :: runGate g.newTimes rest

section BottomMostLemmas

private theorem find?_congr_on (p q : Rect → Bool) (l : List Rect)
    (h : ∀ a ∈ l, p a = q a) : l.find? p = l.find? q := by
  induction l with
  | nil => rfl
  | cons x xs ih =>
    have hx := h x (List.mem_cons_self x xs)
    simp only [List.find?]
    rw [hx]
    cases hq : q x with
    | true => rfl
    | false => exact ih (fun a ha => h a (List.mem_cons_of_mem x ha))

/-- The fold computes the first maximum-bottom element of `r0 :: rs`. -/
theorem bottomMostFold_eq_specBottomMost (rs : List Rect) (r0 : Rect) :
    some (bottomMostFold r0 rs) = specBottomMost (r0 :: rs) := by
  induction rs generalizing r0 with
  | nil =>
    simp [bottomMostFold, specBottomMost, List.find?]
  | cons x xs ih =>
    simp only [bottomMostFold, List.foldl_cons]
    by_cases h : r0.bottom < x.bottom
    · simp only [if_pos h]
      have step : bottomMostFold x xs =
          xs.foldl (fun best r => if best.bottom < r.bottom then r else best) x := rfl
      rw [show xs.foldl (fun best r => if best.bottom < r.bottom then r else best) x =
        bottomMostFold x xs from rfl, ih x]
      -- the two predicates agree pointwise: whenever the x-constraint
      -- holds, the r0-constraint follows from r0 < x.
      have hpq : ∀ a ∈ (r0 :: x :: xs),
          ((r0 :: x :: xs).all (fun y => y.bottom ≤ a.bottom)) =
          ((x :: xs).all (fun y => y.bottom ≤ a.bottom)) := by
        intro a _
        simp only [List.all_cons, Bool.and_assoc]
        cases hax : decide (x.bottom ≤ a.bottom) with
        | false => simp [hax]
        | true =>
          have : x.bottom ≤ a.bottom := of_decide_eq_true hax
          have hr : r0.bottom ≤ a.bottom := le_trans (le_of_lt h) this
          simp [hax, hr]
      unfold specBottomMost
      rw [find?_congr_on _ _ _ hpq]
      -- r0 fails the predicate (x beats it), so find? skips it.
      have hr0 : ((x :: xs).all (fun y => y.bottom ≤ r0.bottom)) = false := by
        simp only [List.all_cons, Bool.and_eq_false_iff]
        left
        simpa using not_le.mpr h
      simp only [List.find?]
      rw [hr0]
    · simp only [if_neg h]
      push_neg at h
      rw [show xs.foldl (fun best r => if best.bottom < r.bottom then r else best) r0 =
        bottomMostFold r0 xs from rfl, ih r0]
      -- predicates agree pointwise: the x-constraint is implied by the
      -- r0-constraint since x ≤ r0.
      have hpq : ∀ a ∈ (r0 :: xs),
          ((r0 :: xs).all (fun y => y.bottom ≤ a.bottom)) =
          ((r0 :: x :: xs).all (fun y => y.bottom ≤ a.bottom)) := by
        intro a _
        simp only [List.all_cons]
        cases har : decide (r0.bottom ≤ a.bottom) with
        | false => simp [har]
        | true =>
          have : r0.bottom ≤ a.bottom := of_decide_eq_true har
          have hx : x.bottom ≤ a.bottom := le_trans h this
          simp [har, hx]
      unfold specBottomMost
      by_cases hr0 : ((r0 :: x :: xs).all (fun y => y.bottom ≤ r0.bottom)) = true
      · -- r0 is the first max in both lists
        have hr0' : ((r0 :: xs).all (fun y => y.bottom ≤ r0.bottom)) = true := by
          rw [hpq r0 (List.mem_cons_self r0 _)]; exact hr0
        simp only [List.find?]
        rw [hr0, hr0']
      · have hr0f : ((r0 :: x :: xs).all (fun y => y.bottom ≤ r0.bottom)) = false :=
          Bool.eq_false_iff.mpr hr0
        have hr0f' : ((r0 :: xs).all (fun y => y.bottom ≤ r0.bottom)) = false := by
          rw [hpq r0 (List.mem_cons_self r0 _)]; exact hr0f
        -- x also fails: if r0 ≤ x then x.bottom = r0.bottom, and some
        -- element beats r0, hence beats x.
        have hxf : ((r0 :: x :: xs).all (fun y => y.bottom ≤ x.bottom)) = false := by
          cases hcase : decide (r0.bottom ≤ x.bottom) with
          | false =>
            simp only [List.all_cons, Bool.and_eq_false_iff]
            left; exact hcase
          | true =>
            have h1 : r0.bottom ≤ x.bottom := of_decide_eq_true hcase
            have heq : x.bottom = r0.bottom := le_antisymm h h1
            simp only [heq]
            exact hr0f
        simp only [List.find?]
        rw [hr0f, hr0f', hxf]
        apply find?_congr_on
        intro a ha
        exact hpq a (List.mem_cons_of_mem r0 ha)

/-- Folding over a list that repeats the initial candidate at its head is
the same as folding over the tail: the first comparison is `r0 < r0`. -/
theorem bottomMostFold_self (r0 : Rect) (rest : List Rect) :
    bottomMostFold r0 (r0 :: rest) = bottomMostFold r0 rest := by
  simp [bottomMostFold, List.foldl_cons, lt_irrefl]

/-- The code's fold (seeded with `rects[0]`, run over the whole list)
computes the spec's first maximum-bottom element. -/
theorem bottomMostFold_full_eq_spec (r0 : Rect) (rest : List Rect) :
    some (bottomMostFold r0 (r0 :: rest)) = specBottomMost (r0 :: rest) := by
  rw [bottomMostFold_self]
  exact bottomMostFold_eq_specBottomMost rest r0

/-- The code's live rect equals the spec's. -/
theorem liveRect_eq_spec (range : RangeInfo) :
    liveRect range = specLiveRect range := by
  obtain ⟨rects, bounding⟩ := range
  cases rects with
  | nil => simp [liveRect, specLiveRect, specBottomMost]
  | cons r0 rest =>
    show bottomMostFold r0 (r0 :: rest) = (specBottomMost (r0 :: rest)).getD bounding
    rw [← bottomMostFold_full_eq_spec r0 rest]
    rfl

/-- The code's overlay branch equals the spec's. -/
theorem overlayBranch_eq_spec (env : DomEnv) :
    overlayBranch env = specOverlayRect env := by
  obtain ⟨sel, overlay, w, h⟩ := env
  cases overlay with
  | none => rfl
  | some blocks =>
    cases blocks with
    | nil => rfl
    | cons b0 bs =>
      show (if 0 < (bottomMostFold b0 (b0 :: bs)).width ∨
              0 < (bottomMostFold b0 (b0 :: bs)).height
            then some (bottomMostFold b0 (b0 :: bs)) else none) =
          (match specBottomMost (b0 :: bs) with
          | some bm => if 0 < bm.width ∨ 0 < bm.height then some bm else none
          | none => none)
      rw [← bottomMostFold_full_eq_spec b0 bs]

/-- C7 refinement core: the code's rect resolver equals the amended
specification. -/
theorem getSelectionRect_eq_spec (env : DomEnv) :
    getSelectionRect env = resolveAnchorRectSpec env := by
  have hoverlay := overlayBranch_eq_spec env
  obtain ⟨sel, overlay, w, h⟩ := env
  cases sel with
  | none => exact hoverlay
  | some s =>
    show (if 0 < s.ranges.length ∧ s.isCollapsed = false then _ else
        overlayBranch ⟨some s, overlay, w, h⟩) = _
    by_cases hlive : 0 < s.ranges.length ∧ s.isCollapsed = false
    · simp only [getSelectionRect, resolveAnchorRectSpec, if_pos hlive]
      cases hr : s.ranges with
      | nil => rfl
      | cons range tl => simp [liveRect_eq_spec]
    · simp only [getSelectionRect, resolveAnchorRectSpec, if_neg hlive]
      exact hoverlay

end BottomMostLemmas

/-- C7 counterexample: with no live selection and a single overlay
highlight block whose rect is 0×0 at (5,5), the claim's overlay sentence
returns that block's rect, but the code returns null (it additionally
requires a positive width or height). -/
theorem C7_overlay_degenerate_counterexample :
    getSelectionRect ⟨none, some [⟨5, 5, 5, 5, 0, 0⟩], 800, 600⟩ = none ∧
    claimOverlayRect ⟨none, some [⟨5, 5, 5, 5, 0, 0⟩], 800, 600⟩ =
      some ⟨5, 5, 5, 5, 0, 0⟩ ∧
    getSelectionRect ⟨none, some [⟨5, 5, 5, 5, 0, 0⟩], 800, 600⟩ ≠
      claimOverlayRect ⟨none, some [⟨5, 5, 5, 5, 0, 0⟩], 800, 600⟩ := by
  refine ⟨rfl, rfl, ?_⟩
  decide

/-- C7 (amended): `getSelectionRect` returns, for a non-collapsed live
selection with at least one range, the first maximum-bottom client rect
of the first range (the range's bounding rect when it has no client
rects), rejecting a rect whose width and height are both zero; otherwise
the bottom-most overlay highlight block's rect provided its width or
height is positive; otherwise null. -/
theorem C7_resolveAnchorRect_amended (env : DomEnv) :
    getSelectionRect env = resolveAnchorRectSpec env :=
  getSelectionRect_eq_spec env

section UpdateLemmas

theorem update_treatedVisible (st : CState) (env : DomEnv) :
    (update st env).treatedVisible = selectionVisibleAt st env := by
  unfold update selectionVisibleAt
  cases hv : liveRectVisible env <;>
    cases ha : hasSelection env <;>
    cases hp : st.pinned <;>
    simp [hv, ha, hp]

theorem update_lastSelectionText (st : CState) (env : DomEnv) :
    (update st env).state.lastSelectionText = tickSelText st env := by
  unfold update tickSelText selectionVisibleAt
  cases hv : liveRectVisible env <;>
    cases ha : hasSelection env <;>
    cases hp : st.pinned <;>
    simp [hv, ha, hp]

theorem update_forceClosed (st : CState) (env : DomEnv) :
    (update st env).state.forceClosed =
      (if tickSelText st env = st.lastSelectionText then st.forceClosed else false) := by
  unfold update tickSelText selectionVisibleAt
  cases hv : liveRectVisible env <;>
    cases ha : hasSelection env <;>
    cases hp : st.pinned <;>
    simp [hv, ha, hp]

theorem update_display (st : CState) (env : DomEnv) :
    (update st env).state.display =
      (!(update st env).state.forceClosed &&
        (st.pinned || (!st.isMouseDown && selectionVisibleAt st env) || st.insidePopup)) := by
  unfold update selectionVisibleAt
  cases hv : liveRectVisible env <;>
    cases ha : hasSelection env <;>
    cases hp : st.pinned <;>
    simp [hv, ha, hp]

end UpdateLemmas

/-- C1: after every reconciliation tick, the popup is displayed iff
`!forceClosed && (pinned || (!isMouseDown && selectionVisible) || insidePopup)`,
evaluated on that tick's state (`forceClosed` after the tick's own
clearing; `selectionVisible` is the tick's effective visibility). -/
theorem C1_display_invariant (st : CState) (env : DomEnv) :
    (update st env).state.display =
      (!(update st env).state.forceClosed &&
        ((update st env).state.pinned ||
          (!(update st env).state.isMouseDown && selectionVisibleAt st env) ||
          (update st env).state.insidePopup)) :=
  update_display st env

/-- C2: once `forceClosed` is true, a listener event clears it exactly
when it is a reconciliation tick whose computed selection text differs
from the last observed value (part 1); across any run of events whose
ticks all compute unchanged selection text, `forceClosed` stays true
(part 2). -/
theorem C2_forceClosed_persistence :
    (∀ (st : CState) (e : PageEvent), st.forceClosed = true →
      (((step st e).forceClosed = false) ↔
        (∃ env, e = PageEvent.tick env ∧ tickSelText st env ≠ st.lastSelectionText)))
    ∧
    (∀ (evs : List PageEvent) (st : CState), st.forceClosed = true →
      ticksUnchanged st evs = true → (evs.foldl step st).forceClosed = true) := by
  constructor
  · intro st e hfc
    cases e with
    | tick env =>
      constructor
      · intro h
        refine ⟨env, rfl, ?_⟩
        intro heq
        have h' : (update st env).state.forceClosed = false := h
        rw [update_forceClosed, if_pos heq, hfc] at h'
        exact absurd h' (by simp)
      · rintro ⟨env', heq', hne⟩
        have henv : env = env' := by injection heq'
        subst henv
        show (update st env).state.forceClosed = false
        rw [update_forceClosed, if_neg hne]
    | forceClose => simp [step]
    | pinEvent p => simp [step, hfc]
    | mouseDown => simp [step, hfc]
    | mouseUp => simp [step, hfc]
    | pointerEnter => simp [step, hfc]
    | pointerLeave => simp [step, hfc]
  · intro evs
    induction evs with
    | nil =>
      intro st hfc _
      simpa using hfc
    | cons e rest ih =>
      intro st hfc hun
      simp only [ticksUnchanged, Bool.and_eq_true] at hun
      obtain ⟨he, hrest⟩ := hun
      rw [List.foldl_cons]
      apply ih _ _ hrest
      cases e with
      | tick env =>
        have heq : tickSelText st env = st.lastSelectionText := by
          simpa using he
        show (update st env).state.forceClosed = true
        rw [update_forceClosed, if_pos heq]
        exact hfc
      | forceClose => rfl
      | pinEvent p => simpa [step] using hfc
      | mouseDown => simpa [step] using hfc
      | mouseUp => simpa [step] using hfc
      | pointerEnter => simpa [step] using hfc
      | pointerLeave => simpa [step] using hfc

/-- Witness for C2: after a pin and a mouse-down (no tick with changed
text), a force-closed popup stays force-closed. -/
theorem C2_forceClosed_persistence_witness :
    (([PageEvent.mouseDown, PageEvent.pinEvent true].foldl step
      ⟨false, false, false, false, true, "abc", false⟩).forceClosed = true) :=
  C2_forceClosed_persistence.2 [PageEvent.mouseDown, PageEvent.pinEvent true]
    ⟨false, false, false, false, true, "abc", false⟩ rfl (by decide)

/-- C8 counterexample: when no rect is resolvable but the popup is
pinned, the synthetic rect the code builds sits 8px (the `MARGIN`) from
the bottom-left corner, not 1px as the claim states. -/
theorem C8_corner_margin_counterexample :
    (update ⟨false, false, false, true, false, "", false⟩
        ⟨none, none, 800, 600⟩).usedRect
      = some (cornerRect ⟨none, none, 800, 600⟩) ∧
    cornerRect ⟨none, none, 800, 600⟩ ≠ claimCornerRect ⟨none, none, 800, 600⟩ := by
  refine ⟨rfl, ?_⟩
  decide

/-- C8 (amended): on a tick with no visible live rect but a selection or
a pin, the controller positions with the synthetic 1×1 corner rect
(offset from the bottom-left corner by the 8px `MARGIN`) and treats it as
visible; with a visible live rect the resolved rect is used instead, and
with neither the tick does not position at all. -/
theorem C8_corner_fallback (st : CState) (env : DomEnv) :
    (liveRectVisible env = false → (hasSelection env || st.pinned) = true →
      (update st env).usedRect = some (cornerRect env) ∧
      (update st env).treatedVisible = true)
    ∧ (liveRectVisible env = true →
      (update st env).usedRect = getSelectionRect env)
    ∧ (liveRectVisible env = false → (hasSelection env || st.pinned) = false →
      (update st env).usedRect = none ∧ (update st env).treatedVisible = false) := by
  refine ⟨?_, ?_, ?_⟩
  · intro h1 h2
    constructor <;> · unfold update; simp [h1, h2]
  · intro h1
    unfold update
    simp [h1]
  · intro h1 h2
    constructor <;> · unfold update; simp [h1, h2]

/-- Witness for C8: a pinned popup with no selection on a 1000×500
viewport corner-anchors at the `MARGIN` offset. -/
theorem C8_corner_fallback_witness :
    (update ⟨false, false, false, true, false, "", false⟩
        ⟨none, none, 1000, 500⟩).usedRect
      = some (cornerRect ⟨none, none, 1000, 500⟩) ∧
    (update ⟨false, false, false, true, false, "", false⟩
        ⟨none, none, 1000, 500⟩).treatedVisible = true :=
  (C8_corner_fallback ⟨false, false, false, true, false, "", false⟩
    ⟨none, none, 1000, 500⟩).1 rfl rfl

/-- C10: a tick with no visible rect and neither selection nor pin
records the empty string as observed text, and—when the previous
observation was non-empty—clears `forceClosed` on that very tick
(part 1); afterwards, any tick computing a non-empty text from an empty
last observation counts as a change, clears `forceClosed`, and (when the
mouse is up) displays the popup (part 2). -/
theorem C10_offscreen_text_reset :
    (∀ (st : CState) (env : DomEnv),
      liveRectVisible env = false → hasSelection env = false → st.pinned = false →
        (update st env).state.lastSelectionText = "" ∧
        (st.lastSelectionText ≠ "" → (update st env).state.forceClosed = false))
    ∧
    (∀ (st : CState) (env : DomEnv),
      st.lastSelectionText = "" → tickSelText st env ≠ "" →
        (update st env).state.forceClosed = false ∧
        (st.isMouseDown = false → (update st env).state.display = true)) := by
  constructor
  · intro st env h1 h2 h3
    have hvis : selectionVisibleAt st env = false := by
      unfold selectionVisibleAt
      simp [h1, h2, h3]
    have htext : tickSelText st env = "" := by
      unfold tickSelText
      rw [hvis]
      simp
    refine ⟨?_, ?_⟩
    · rw [update_lastSelectionText, htext]
    · intro hne
      rw [update_forceClosed, htext, if_neg (Ne.symm hne)]
  · intro st env h0 hne
    have hfc : (update st env).state.forceClosed = false := by
      rw [update_forceClosed, h0, if_neg hne]
    refine ⟨hfc, ?_⟩
    intro hmd
    have hvis : selectionVisibleAt st env = true := by
      by_contra hv
      have hv' : selectionVisibleAt st env = false := by
        simpa using hv
      apply hne
      unfold tickSelText
      rw [hv']
      simp
    rw [update_display, hfc, hvis, hmd]
    simp

/-- Witness for C10: an off-screen empty tick after observing "abc"
clears `forceClosed`, and a later tick observing "abc" again displays
the popup. -/
theorem C10_offscreen_text_reset_witness :
    ((update ⟨false, false, false, false, true, "abc", false⟩
        ⟨none, none, 800, 600⟩).state.lastSelectionText = "" ∧
      (update ⟨false, false, false, false, true, "abc", false⟩
        ⟨none, none, 800, 600⟩).state.forceClosed = false) ∧
    (update ⟨false, false, false, false, true, "", false⟩
        ⟨some ⟨"abc", false, [⟨[⟨0, 0, 50, 20, 50, 20⟩], ⟨0, 0, 50, 20, 50, 20⟩⟩]⟩,
          none, 800, 600⟩).state.display = true := by
  constructor
  · have h := C10_offscreen_text_reset.1
      ⟨false, false, false, false, true, "abc", false⟩ ⟨none, none, 800, 600⟩
      rfl rfl rfl
    exact ⟨h.1, h.2 (by decide)⟩
  · have h := C10_offscreen_text_reset.2
      ⟨false, false, false, false, true, "", false⟩
      ⟨some ⟨"abc", false, [⟨[⟨0, 0, 50, 20, 50, 20⟩], ⟨0, 0, 50, 20, 50, 20⟩⟩]⟩,
        none, 800, 600⟩
      rfl (by decide)
    exact h.2 rfl

section NormalizationLemmas

private theorem length_dropWhile_le' (p : Char → Bool) (l : List Char) :
    (l.dropWhile p).length ≤ l.length := by
  induction l with
  | nil => simp [List.dropWhile]
  | cons c t ih =>
    cases hpc : p c with
    | true =>
      simp only [List.dropWhile, hpc]
      exact Nat.le_succ_of_le ih
    | false => simp [List.dropWhile, hpc]

private theorem normCharsFuel_nil (f : Nat) : normCharsFuel f [] = [] := by
  cases f <;> rfl

private theorem normCharsFuel_congr : ∀ (f1 f2 : Nat) (l : List Char),
    l.length ≤ f1 → l.length ≤ f2 → normCharsFuel f1 l = normCharsFuel f2 l := by
  intro f1
  induction f1 with
  | zero =>
    intro f2 l h1 _
    have hl : l = [] := List.eq_nil_of_length_eq_zero (Nat.le_zero.mp h1)
    subst hl
    rw [normCharsFuel_nil, normCharsFuel_nil]
  | succ n ih =>
    intro f2 l h1 h2
    cases l with
    | nil => rw [normCharsFuel_nil, normCharsFuel_nil]
    | cons c rest =>
      cases f2 with
      | zero => exact absurd h2 (by simp)
      | succ m =>
        simp only [normCharsFuel]
        have hr : rest.length ≤ n := by simpa using h1
        have hr2 : rest.length ≤ m := by simpa using h2
        by_cases hc : c = '.'
        · simp only [if_pos hc]
          by_cases hw : 2 ≤ (rest.takeWhile isJsWhitespace).length
          · simp only [if_pos hw]
            have hd := length_dropWhile_le' isJsWhitespace rest
            rw [ih _ _ (le_trans hd hr) (le_trans hd hr2)]
          · simp only [if_neg hw]
            rw [ih _ _ hr hr2]
        · simp only [if_neg hc]
          rw [ih _ _ hr hr2]

private theorem takeWhile_append_all (p : Char → Bool) :
    ∀ (ws rest : List Char), (∀ c ∈ ws, p c = true) →
      (∀ c, rest.head? = some c → p c = false) →
      (ws ++ rest).takeWhile p = ws ∧ (ws ++ rest).dropWhile p = rest := by
  intro ws
  induction ws with
  | nil =>
    intro rest _ hrest
    cases rest with
    | nil => constructor <;> rfl
    | cons c t =>
      have hc := hrest c rfl
      constructor
      · simp [List.takeWhile, hc]
      · simp [List.dropWhile, hc]
  | cons w wtl ih =>
    intro rest hws hrest
    have hw : p w = true := hws w (List.mem_cons_self _ _)
    have hih := ih rest (fun c hc => hws c (List.mem_cons_of_mem _ hc)) hrest
    constructor
    · simp only [List.cons_append, List.takeWhile, hw]
      rw [show wtl.append rest = wtl ++ rest from rfl, hih.1]
    · simp only [List.cons_append, List.dropWhile, hw]
      rw [show wtl.append rest = wtl ++ rest from rfl, hih.2]

end NormalizationLemmas

/-- C4: the streaming normalization replaces a period followed by a
maximal run of ≥ 2 whitespace characters with a period and exactly two
newlines (part 3), copies any other character (part 4), is applied to
the whole accumulated buffer on each incoming token (part 2), and
folding the scenario tokens yields the expected final buffer (part 1). -/
theorem C4_stream_normalization :
    (List.foldl applyToken "" ["The ", "theory. ", "  More."] = "The theory.\n\nMore.")
    ∧ (∀ (st : PopupState) (t : String),
        (reqStep st (.token t)).response = normalizeText (st.response ++ t))
    ∧ (∀ (ws rest : List Char), (∀ c ∈ ws, isJsWhitespace c = true) → 2 ≤ ws.length →
        (∀ c, rest.head? = some c → isJsWhitespace c = false) →
        normalizeText (String.mk ('.' :: (ws ++ rest))) =
          String.mk ('.' :: '\n' :: '\n' :: (normalizeText (String.mk rest)).data))
    ∧ (∀ (c : Char) (l : List Char), c ≠ '.' →
        normalizeText (String.mk (c :: l)) =
          String.mk (c :: (normalizeText (String.mk l)).data)) := by
  refine ⟨by decide, fun st t => rfl, ?_, ?_⟩
  · intro ws rest hws h2 hrest
    have htw := takeWhile_append_all isJsWhitespace ws rest hws hrest
    unfold normalizeText
    apply congrArg String.mk
    simp only [normCharsFuel]
    rw [htw.1, htw.2, if_pos trivial, if_pos h2]
    have hlen : rest.length ≤ (ws ++ rest).length := by
      rw [List.length_append]
      exact Nat.le_add_left _ _
    rw [normCharsFuel_congr ((ws ++ rest).length) rest.length rest hlen le_rfl]
  · intro c l hc
    unfold normalizeText
    apply congrArg String.mk
    simp only [normCharsFuel, List.length_cons]
    rw [if_neg hc]

/-- Witness for C4: the replacement fires on a concrete two-space run
and the copy rule on a concrete non-period head. -/
theorem C4_stream_normalization_witness :
    normalizeText (String.mk ('.' :: ([' ', ' '] ++ ['M']))) =
      String.mk ('.' :: '\n' :: '\n' :: (normalizeText (String.mk ['M'])).data) ∧
    normalizeText (String.mk ('a' :: [' '])) =
      String.mk ('a' :: (normalizeText (String.mk [' '])).data) :=
  ⟨C4_stream_normalization.2.2.1 [' ', ' '] ['M'] (by decide) (by decide) (by decide),
   C4_stream_normalization.2.2.2 'a' [' '] (by decide)⟩

/-- C3: the client gate prunes to the strict 60 s window and rejects at
≥ 5 recent entries with a ≥ 1 s wait, leaving the stored list untouched,
else records now (part 1); each of the three submission handlers, on a
non-empty input, sends no request and leaves history unchanged when the
gate rejects, and sends a request after recording now when it accepts
(parts 2–4); five submissions inside 60 s make the 6th rejected with a
positive wait, and a 6th after the window succeeds (part 5). -/
theorem C3_client_rate_limit :
    (∀ (times : List Int) (now : Int),
      (RATE_LIMIT ≤ (times.filter (fun t => now - RATE_WINDOW_MS < t)).length →
        (rateGate times now).accepted = false ∧
        (rateGate times now).newTimes = times ∧
        ∃ s, (rateGate times now).remainingSec = some s ∧ 1 ≤ s) ∧
      ((times.filter (fun t => now - RATE_WINDOW_MS < t)).length < RATE_LIMIT →
        (rateGate times now).accepted = true ∧
        (rateGate times now).newTimes =
          times.filter (fun t => now - RATE_WINDOW_MS < t) ++ [now]))
    ∧ (∀ (st : PopupState) (selRaw : String) (now : Int) (fc u hd : String),
        jsTrim selRaw ≠ "" →
        (RATE_LIMIT ≤ (st.requestTimes.filter (fun t => now - RATE_WINDOW_MS < t)).length →
          (handleExplainClick st selRaw now fc u hd).request = none ∧
          (handleExplainClick st selRaw now fc u hd).state.history = st.history ∧
          (handleExplainClick st selRaw now fc u hd).state.requestTimes = st.requestTimes ∧
          ∃ s : Int, 1 ≤ s ∧ (handleExplainClick st selRaw now fc u hd).state.response =
            "Rate limit reached. Try again in " ++ toString s ++ "s") ∧
        ((st.requestTimes.filter (fun t => now - RATE_WINDOW_MS < t)).length < RATE_LIMIT →
          (handleExplainClick st selRaw now fc u hd).request.isSome = true ∧
          (handleExplainClick st selRaw now fc u hd).state.requestTimes =
            st.requestTimes.filter (fun t => now - RATE_WINDOW_MS < t) ++ [now]))
    ∧ (∀ (st : PopupState) (inputRaw : String) (now : Int) (fc u hd : String),
        jsTrim inputRaw ≠ "" →
        (RATE_LIMIT ≤ (st.requestTimes.filter (fun t => now - RATE_WINDOW_MS < t)).length →
          (handleTopSearchSubmit st inputRaw now fc u hd).request = none ∧
          (handleTopSearchSubmit st inputRaw now fc u hd).state.history = st.history ∧
          (handleTopSearchSubmit st inputRaw now fc u hd).state.requestTimes = st.requestTimes ∧
          ∃ s : Int, 1 ≤ s ∧ (handleTopSearchSubmit st inputRaw now fc u hd).state.response =
            "Rate limit reached. Try again in " ++ toString s ++ "s") ∧
        ((st.requestTimes.filter (fun t => now - RATE_WINDOW_MS < t)).length < RATE_LIMIT →
          (handleTopSearchSubmit st inputRaw now fc u hd).request.isSome = true ∧
          (handleTopSearchSubmit st inputRaw now fc u hd).state.requestTimes =
            st.requestTimes.filter (fun t => now - RATE_WINDOW_MS < t) ++ [now]))
    ∧ (∀ (st : PopupState) (query : String) (now : Int),
        jsTrim query ≠ "" →
        (RATE_LIMIT ≤ (st.requestTimes.filter (fun t => now - RATE_WINDOW_MS < t)).length →
          (handleDeeperSubmit st query now).request = none ∧
          (handleDeeperSubmit st query now).state.history = st.history ∧
          (handleDeeperSubmit st query now).state.requestTimes = st.requestTimes ∧
          ∃ s : Int, 1 ≤ s ∧ (handleDeeperSubmit st query now).state.response =
            "Rate limit reached. Try again in " ++ toString s ++ "s") ∧
        ((st.requestTimes.filter (fun t => now - RATE_WINDOW_MS < t)).length < RATE_LIMIT →
          (handleDeeperSubmit st query now).request.isSome = true ∧
          (handleDeeperSubmit st query now).state.requestTimes =
            st.requestTimes.filter (fun t => now - RATE_WINDOW_MS < t) ++ [now]))
    ∧ (runGate [] [0, 10000, 20000, 30000, 40000, 50000] =
        [true, true, true, true, true, false] ∧
      (rateGate [0, 10000, 20000, 30000, 40000] 50000).remainingSec = some 10 ∧
      runGate [] [0, 10000, 20000, 30000, 40000, 61000] =
        [true, true, true, true, true, true]) := by
  refine ⟨?_, ?_, ?_, ?_, by decide, by decide, by decide⟩
  · intro times now
    constructor
    · intro hge
      unfold rateGate
      rw [if_pos hge]
      exact ⟨rfl, rfl, _, rfl, le_max_left 1 _⟩
    · intro hlt
      unfold rateGate
      rw [if_neg (not_le.mpr hlt)]
      exact ⟨rfl, rfl⟩
  · intro st selRaw now fc u hd hne
    constructor
    · intro hge
      simp only [handleExplainClick]
      rw [if_neg hne, if_pos hge]
      exact ⟨rfl, rfl, rfl,
        max 1 (ceilDiv1000 (listMin
          (st.requestTimes.filter (fun t => now - RATE_WINDOW_MS < t)) +
          RATE_WINDOW_MS - now)),
        le_max_left 1 _, rfl⟩
    · intro hlt
      simp only [handleExplainClick]
      rw [if_neg hne, if_neg (not_le.mpr hlt)]
      exact ⟨rfl, rfl⟩
  · intro st inputRaw now fc u hd hne
    constructor
    · intro hge
      simp only [handleTopSearchSubmit]
      rw [if_neg hne, if_pos hge]
      exact ⟨rfl, rfl, rfl,
        max 1 (ceilDiv1000 (listMin
          (st.requestTimes.filter (fun t => now - RATE_WINDOW_MS < t)) +
          RATE_WINDOW_MS - now)),
        le_max_left 1 _, rfl⟩
    · intro hlt
      simp only [handleTopSearchSubmit]
      rw [if_neg hne, if_neg (not_le.mpr hlt)]
      exact ⟨rfl, rfl⟩
  · intro st query now hne
    constructor
    · intro hge
      simp only [handleDeeperSubmit]
      rw [if_neg hne, if_pos hge]
      exact ⟨rfl, rfl, rfl,
        max 1 (ceilDiv1000 (listMin
          (st.requestTimes.filter (fun t => now - RATE_WINDOW_MS < t)) +
          RATE_WINDOW_MS - now)),
        le_max_left 1 _, rfl⟩
    · intro hlt
      simp only [handleDeeperSubmit]
      rw [if_neg hne, if_neg (not_le.mpr hlt)]
      exact ⟨rfl, rfl⟩

/-- Witness for C3: with five recorded submissions in the last minute, a
sixth explain click at t = 50 s is rejected without touching state. -/
theorem C3_client_rate_limit_witness :
    (handleExplainClick
      ⟨"", false, "", "", [], [], "", "", "", 0, [0, 10000, 20000, 30000, 40000], false⟩
      "word" 50000 "ctx" "u" "h").request = none ∧
    (handleExplainClick
      ⟨"", false, "", "", [], [], "", "", "", 0, [0, 10000, 20000, 30000, 40000], false⟩
      "word" 50000 "ctx" "u" "h").state.requestTimes = [0, 10000, 20000, 30000, 40000] := by
  have h := ((C3_client_rate_limit.2.1
    ⟨"", false, "", "", [], [], "", "", "", 0, [0, 10000, 20000, 30000, 40000], false⟩
    "word" 50000 "ctx" "u" "h") (by decide)).1 (by decide)
  exact ⟨h.1, h.2.2.1⟩

/-- C9: when the gate rejects a submission, the handler leaves the whole
state unchanged except for clearing the error string and setting the
transient response message; in particular the stored timestamp list is
not even pruned, and history is untouched. -/
theorem C9_reject_leaves_state :
    (∀ (st : PopupState) (selRaw : String) (now : Int) (fc u hd : String),
      jsTrim selRaw ≠ "" →
      RATE_LIMIT ≤ (st.requestTimes.filter (fun t => now - RATE_WINDOW_MS < t)).length →
      (handleExplainClick st selRaw now fc u hd).request = none ∧
      (handleExplainClick st selRaw now fc u hd).state =
        { st with
            error := "",
            response := (handleExplainClick st selRaw now fc u hd).state.response } ∧
      ∃ s : Int, 1 ≤ s ∧ (handleExplainClick st selRaw now fc u hd).state.response =
        "Rate limit reached. Try again in " ++ toString s ++ "s")
    ∧ (∀ (st : PopupState) (inputRaw : String) (now : Int) (fc u hd : String),
      jsTrim inputRaw ≠ "" →
      RATE_LIMIT ≤ (st.requestTimes.filter (fun t => now - RATE_WINDOW_MS < t)).length →
      (handleTopSearchSubmit st inputRaw now fc u hd).request = none ∧
      (handleTopSearchSubmit st inputRaw now fc u hd).state =
        { st with
            error := "",
            response := (handleTopSearchSubmit st inputRaw now fc u hd).state.response })
    ∧ (∀ (st : PopupState) (query : String) (now : Int),
      jsTrim query ≠ "" →
      RATE_LIMIT ≤ (st.requestTimes.filter (fun t => now - RATE_WINDOW_MS < t)).length →
      (handleDeeperSubmit st query now).request = none ∧
      (handleDeeperSubmit st query now).state =
        { st with
            error := "",
            response := (handleDeeperSubmit st query now).state.response }) := by
  refine ⟨?_, ?_, ?_⟩
  · intro st selRaw now fc u hd hne hge
    simp only [handleExplainClick]
    rw [if_neg hne, if_pos hge]
    exact ⟨rfl, rfl,
      max 1 (ceilDiv1000 (listMin
        (st.requestTimes.filter (fun t => now - RATE_WINDOW_MS < t)) +
        RATE_WINDOW_MS - now)),
      le_max_left 1 _, rfl⟩
  · intro st inputRaw now fc u hd hne hge
    simp only [handleTopSearchSubmit]
    rw [if_neg hne, if_pos hge]
    exact ⟨rfl, rfl⟩
  · intro st query now hne hge
    simp only [handleDeeperSubmit]
    rw [if_neg hne, if_pos hge]
    exact ⟨rfl, rfl⟩

/-- Witness for C9: a sixth explain click inside the window changes only
the error and response strings. -/
theorem C9_reject_leaves_state_witness :
    (handleExplainClick
      ⟨"sel", true, "boom", "old", [⟨"user", "p"⟩], [], "q", "d", "os", 7,
        [0, 1, 2, 3, 4], true⟩
      "word" 5000 "ctx" "u" "h").state =
      { selectedText := "sel", loading := true, error := "",
        response := (handleExplainClick
          ⟨"sel", true, "boom", "old", [⟨"user", "p"⟩], [], "q", "d", "os", 7,
            [0, 1, 2, 3, 4], true⟩
          "word" 5000 "ctx" "u" "h").state.response,
        history := [⟨"user", "p"⟩], contexts := [], questionInput := "q",
        deeperInput := "d", originalSelection := "os", limitReached := 7,
        requestTimes := [0, 1, 2, 3, 4], appendedOnce := true } :=
  ((C9_reject_leaves_state.1
    ⟨"sel", true, "boom", "old", [⟨"user", "p"⟩], [], "q", "d", "os", 7,
      [0, 1, 2, 3, 4], true⟩
    "word" 5000 "ctx" "u" "h" (by decide) (by decide)).2).1

section RequestLemmas

private theorem applyLimitStatus_parts (s : PopupState) (status : Option LimitStatus) :
    (applyLimitStatus s status).history = s.history ∧
    (applyLimitStatus s status).appendedOnce = s.appendedOnce := by
  cases status <;> simp [applyLimitStatus]

private theorem appendAssistantIfNew_pos (s : PopupState) (ft : String)
    (h : ft ≠ "" ∧ s.appendedOnce = false) :
    (appendAssistantIfNew s ft).history = s.history ++ [ChatMsg.mk "assistant" ft] ∧
    (appendAssistantIfNew s ft).appendedOnce = true := by
  rw [appendAssistantIfNew, if_pos h]
  exact ⟨rfl, rfl⟩

private theorem appendAssistantIfNew_neg (s : PopupState) (ft : String)
    (h : ¬(ft ≠ "" ∧ s.appendedOnce = false)) :
    appendAssistantIfNew s ft = s := by
  rw [appendAssistantIfNew, if_neg h]

/-- One completion event either leaves history and the flag alone, sets
the flag without appending, or (only from an unset flag) appends exactly
one assistant entry and sets the flag. -/
private theorem reqStep_history_cases (st : PopupState) (e : ReqEvent) :
    ((reqStep st e).history = st.history ∧ (reqStep st e).appendedOnce = st.appendedOnce) ∨
    ((reqStep st e).history = st.history ∧ (reqStep st e).appendedOnce = true) ∨
    (st.appendedOnce = false ∧ (reqStep st e).appendedOnce = true ∧
      ∃ a, (reqStep st e).history = st.history ++ [ChatMsg.mk "assistant" a]) := by
  cases e with
  | token t => exact Or.inl ⟨rfl, rfl⟩
  | streamDone status =>
    simp only [reqStep]
    by_cases hg : jsTrim st.response ≠ "" ∧
        ({ st with loading := false } : PopupState).appendedOnce = false
    · right; right
      have hp := appendAssistantIfNew_pos _ _ hg
      have ha := applyLimitStatus_parts
        (appendAssistantIfNew { st with loading := false } (jsTrim st.response)) status
      refine ⟨hg.2, ?_, jsTrim st.response, ?_⟩
      · rw [ha.2, hp.2]
      · rw [ha.1, hp.1]
    · left
      have hn := appendAssistantIfNew_neg _ _ hg
      have ha := applyLimitStatus_parts
        (appendAssistantIfNew { st with loading := false } (jsTrim st.response)) status
      constructor
      · rw [ha.1, hn]
      · rw [ha.2, hn]
  | streamError errMsg secs fb =>
    simp only [reqStep]
    by_cases h429 : is429 errMsg
    · rw [if_pos h429]
      right; left
      exact ⟨rfl, rfl⟩
    · rw [if_neg h429]
      cases fb with
      | ok out status =>
        simp only
        by_cases hg : jsTrim (normalizeText (jsOrString out "(No response)")) ≠ "" ∧
            ({ st with response := normalizeText (jsOrString out "(No response)") } :
              PopupState).appendedOnce = false
        · right; right
          have hp := appendAssistantIfNew_pos _ _ hg
          have ha := applyLimitStatus_parts
            (appendAssistantIfNew
              { st with response := normalizeText (jsOrString out "(No response)") }
              (jsTrim (normalizeText (jsOrString out "(No response)")))) status
          refine ⟨hg.2, ?_, jsTrim (normalizeText (jsOrString out "(No response)")), ?_⟩
          · show (applyLimitStatus _ _).appendedOnce = true
            rw [ha.2, hp.2]
          · show (applyLimitStatus _ _).history = _
            rw [ha.1, hp.1]
        · left
          have hn := appendAssistantIfNew_neg _ _ hg
          have ha := applyLimitStatus_parts
            (appendAssistantIfNew
              { st with response := normalizeText (jsOrString out "(No response)") }
              (jsTrim (normalizeText (jsOrString out "(No response)")))) status
          constructor
          · show (applyLimitStatus _ _).history = _
            rw [ha.1, hn]
          · show (applyLimitStatus _ _).appendedOnce = _
            rw [ha.2, hn]
      | fail e2Msg secs2 =>
        simp only
        by_cases h429b : is429 e2Msg
        · rw [if_pos h429b]
          right; left
          exact ⟨rfl, rfl⟩
        · rw [if_neg h429b]
          exact Or.inl ⟨rfl, rfl⟩

/-- Over any run of completion events, history gains at most one
assistant entry, and the flag records whether it did. -/
private theorem reqStep_fold_hist (st0 : PopupState) :
    ∀ (evs : List ReqEvent) (st : PopupState),
      (st.history = st0.history ∨
        (st.appendedOnce = true ∧
          ∃ a, st.history = st0.history ++ [ChatMsg.mk "assistant" a])) →
      ((evs.foldl reqStep st).history = st0.history ∨
        ((evs.foldl reqStep st).appendedOnce = true ∧
          ∃ a, (evs.foldl reqStep st).history = st0.history ++ [ChatMsg.mk "assistant" a])) := by
  intro evs
  induction evs with
  | nil => intro st h; simpa using h
  | cons e rest ih =>
    intro st h
    rw [List.foldl_cons]
    apply ih
    rcases reqStep_history_cases st e with ⟨hh, hf⟩ | ⟨hh, hf⟩ | ⟨hflag, hf, a, ha⟩
    · rcases h with h | ⟨hfl, a, hha⟩
      · exact Or.inl (by rw [hh, h])
      · exact Or.inr ⟨by rw [hf, hfl], a, by rw [hh, hha]⟩
    · rcases h with h | ⟨_, a, hha⟩
      · exact Or.inl (by rw [hh, h])
      · exact Or.inr ⟨hf, a, by rw [hh, hha]⟩
    · rcases h with h | ⟨hfl, _, _⟩
      · exact Or.inr ⟨hf, a, by rw [ha, h]⟩
      · rw [hflag] at hfl
        exact absurd hfl (by simp)

end RequestLemmas

/-- C6: the transcript renders only entries after index 0 (part 1); an
initial Explain submission appends the full constructed prompt as its
user entry — the first history entry when history was empty (part 2) —
and a top search appends the full constructed search prompt (part 3); a
deeper submission appends the raw follow-up text, not the templated
prompt it sends (part 4); and any run of completion events after a
request's init appends at most one assistant entry, guarded by the
per-request idempotency flag (part 5). -/
theorem C6_history_shape :
    (∀ h : List ChatMsg, visibleHistory h = h.drop 1)
    ∧ (∀ (st : PopupState) (selRaw : String) (now : Int) (fc u hd : String),
        jsTrim selRaw ≠ "" →
        (st.requestTimes.filter (fun t => now - RATE_WINDOW_MS < t)).length < RATE_LIMIT →
        (handleExplainClick st selRaw now fc u hd).state.history =
          st.history ++ [ChatMsg.mk "user"
            (buildPrompt (jsTrim selRaw) hd u (sliceAroundSelection fc (jsTrim selRaw) 50))] ∧
        (handleExplainClick st selRaw now fc u hd).request =
          some (buildPrompt (jsTrim selRaw) hd u (sliceAroundSelection fc (jsTrim selRaw) 50)))
    ∧ (∀ (st : PopupState) (inputRaw : String) (now : Int) (fc u hd : String),
        jsTrim inputRaw ≠ "" →
        (st.requestTimes.filter (fun t => now - RATE_WINDOW_MS < t)).length < RATE_LIMIT →
        (handleTopSearchSubmit st inputRaw now fc u hd).state.history =
          st.history ++ [ChatMsg.mk "user"
            (SearchPrompt st.originalSelection (jsTrim inputRaw) u hd
              (sliceAroundSelection fc st.originalSelection 50))])
    ∧ (∀ (st : PopupState) (query : String) (now : Int),
        jsTrim query ≠ "" →
        (st.requestTimes.filter (fun t => now - RATE_WINDOW_MS < t)).length < RATE_LIMIT →
        (handleDeeperSubmit st query now).state.history =
          st.history ++ [ChatMsg.mk "user" (jsTrim query)] ∧
        (handleDeeperSubmit st query now).request =
          some (DeeperPrompt st.history (jsTrim query) st.contexts))
    ∧ (∀ (st : PopupState) (evs : List ReqEvent),
        (evs.foldl reqStep (submitInit st)).history = st.history ∨
        ∃ a, (evs.foldl reqStep (submitInit st)).history =
          st.history ++ [ChatMsg.mk "assistant" a]) := by
  refine ⟨?_, ?_, ?_, ?_, ?_⟩
  · intro h
    cases h with
    | nil => rfl
    | cons a t => simp [visibleHistory]
  · intro st selRaw now fc u hd hne hlt
    simp only [handleExplainClick]
    rw [if_neg hne, if_neg (not_le.mpr hlt)]
    exact ⟨rfl, rfl⟩
  · intro st inputRaw now fc u hd hne hlt
    simp only [handleTopSearchSubmit]
    rw [if_neg hne, if_neg (not_le.mpr hlt)]
  · intro st query now hne hlt
    simp only [handleDeeperSubmit]
    rw [if_neg hne, if_neg (not_le.mpr hlt)]
    exact ⟨rfl, rfl⟩
  · intro st evs
    have h := reqStep_fold_hist st evs (submitInit st) (Or.inl rfl)
    rcases h with h | ⟨_, a, ha⟩
    · exact Or.inl h
    · exact Or.inr ⟨a, ha⟩

/-- Witness for C6: a deeper submission from a one-entry history appends
the raw follow-up and requests the templated prompt built from the
pre-append history. -/
theorem C6_history_shape_witness :
    (handleDeeperSubmit
      ⟨"", false, "", "", [⟨"user", "p0"⟩], [], "", "", "", 0, [], false⟩
      " why " 1000).state.history =
      [⟨"user", "p0"⟩] ++ [ChatMsg.mk "user" (jsTrim " why ")] ∧
    (handleDeeperSubmit
      ⟨"", false, "", "", [⟨"user", "p0"⟩], [], "", "", "", 0, [], false⟩
      " why " 1000).request =
      some (DeeperPrompt [⟨"user", "p0"⟩] (jsTrim " why ") []) :=
  C6_history_shape.2.2.2.1
    ⟨"", false, "", "", [⟨"user", "p0"⟩], [], "", "", "", 0, [], false⟩
    " why " 1000 (by decide) (by decide)

/-- C5: a stream error whose message matches the 429 pattern (directly,
or after the non-429 fallback itself fails with a 429) is treated as
rate-limited: error banner and history untouched, the transient message
shows the fetched seconds, the shared counter is set (parts 1–2); the
concrete message for 42 s and pattern samples (part 3); the 1-second
countdown decrements by one per tick, reaching 0 from 42 in exactly 42
ticks, after which the deeper bar no longer blocks submissions (part 4). -/
theorem C5_rate_limited_handling :
    (∀ (st : PopupState) (errMsg : String) (secs : Int) (fb : FallbackOutcome),
      is429 errMsg = true →
        (reqStep st (.streamError errMsg secs fb)).error = st.error ∧
        (reqStep st (.streamError errMsg secs fb)).history = st.history ∧
        (reqStep st (.streamError errMsg secs fb)).response =
          "Too many requests, please try again in " ++
            toString (jsOrInt secs 60) ++ " seconds." ∧
        (reqStep st (.streamError errMsg secs fb)).limitReached = jsOrInt secs 60 ∧
        (reqStep st (.streamError errMsg secs fb)).loading = false)
    ∧ (∀ (st : PopupState) (errMsg e2Msg : String) (secs secs2 : Int),
        is429 errMsg = false → is429 e2Msg = true →
        (reqStep st (.streamError errMsg secs (.fail e2Msg secs2))).error = st.error ∧
        (reqStep st (.streamError errMsg secs (.fail e2Msg secs2))).history = st.history ∧
        (reqStep st (.streamError errMsg secs (.fail e2Msg secs2))).response =
          "Too many requests, please try again in " ++
            toString (jsOrInt secs2 60) ++ " seconds." ∧
        (reqStep st (.streamError errMsg secs (.fail e2Msg secs2))).limitReached =
          jsOrInt secs2 60)
    ∧ (is429 "Gemini stream failed: 429 Too Many Requests" = true ∧
       is429 "Request aborted" = false ∧
       "Too many requests, please try again in " ++ toString (jsOrInt 42 60) ++ " seconds." =
         "Too many requests, please try again in 42 seconds.")
    ∧ ((∀ n : Int, 1 ≤ n → countdownTick n = n - 1) ∧
       (∀ k : Nat, k ≤ 42 → countdownTick^[k] (42 : Int) = 42 - k) ∧
       countdownTick^[42] (42 : Int) = 0 ∧
       deeperSubmitBlocked 42 = true ∧
       deeperSubmitBlocked (countdownTick^[42] (42 : Int)) = false) := by
  have hstep : ∀ n : Int, 1 ≤ n → countdownTick n = n - 1 := by
    intro n hn
    unfold countdownTick
    by_cases h : (0 : Int) < n - 1
    · rw [if_pos h]
    · rw [if_neg h]
      omega
  have hiter : ∀ k : Nat, k ≤ 42 → countdownTick^[k] (42 : Int) = 42 - k := by
    intro k
    induction k with
    | zero => intro _; simp
    | succ n ih =>
      intro hn
      rw [Function.iterate_succ_apply', ih (Nat.le_of_succ_le hn)]
      unfold countdownTick
      by_cases h : (0 : Int) < 42 - (n : Int) - 1
      · rw [if_pos h]
        push_cast
        ring
      · rw [if_neg h]
        push_cast
        omega
  have h42 : countdownTick^[42] (42 : Int) = 0 := by
    rw [hiter 42 le_rfl]
    norm_num
  refine ⟨?_, ?_, ⟨by decide, by decide, by decide⟩,
    hstep, hiter, h42, by decide, ?_⟩
  · intro st errMsg secs fb h429
    simp only [reqStep]
    rw [if_pos h429]
    exact ⟨rfl, rfl, rfl, rfl, rfl⟩
  · intro st errMsg e2Msg secs secs2 h1 h2
    simp only [reqStep]
    rw [if_neg (by simp [h1]), if_pos h2]
    exact ⟨rfl, rfl, rfl, rfl⟩
  · rw [h42]
    decide

/-- Witness for C5: a literal 429 stream failure with 42 fetched seconds
produces the expected transient message with history untouched. -/
theorem C5_rate_limited_handling_witness :
    (reqStep ⟨"", true, "", "", [⟨"user", "p"⟩], [], "", "", "", 0, [], false⟩
        (.streamError "Gemini stream failed: 429 Too Many Requests" 42 (.fail "" 0))).response =
      "Too many requests, please try again in " ++ toString (jsOrInt 42 60) ++ " seconds." ∧
    (reqStep ⟨"", true, "", "", [⟨"user", "p"⟩], [], "", "", "", 0, [], false⟩
        (.streamError "Gemini stream failed: 429 Too Many Requests" 42 (.fail "" 0))).history =
      [⟨"user", "p"⟩] :=
  let h := C5_rate_limited_handling.1
    ⟨"", true, "", "", [⟨"user", "p"⟩], [], "", "", "", 0, [], false⟩
    "Gemini stream failed: 429 Too Many Requests" 42 (.fail "" 0) (by decide)
  ⟨h.2.2.1, h.2.1⟩

end RenderSrv
